import Mathlib

/-!
Verification of the sheet-denormalization pipeline of
`read_and_index_with_resolving.py`: value sanitization, reference-index
building (raw and processed), relation resolution, row-identifier
injection and sheet ordering.

Shallow embedding conventions: Python dicts become association lists that
preserve insertion order; Python `None` is `Value.null`; NaN/NaT markers
are `Value.nan`; fallible functions return `Except Err`.
-/

/-- Values held in row fields: the Python values the pipeline manipulates
(`None`, NaN/NaT markers, pandas timestamps carrying their isoformat,
numpy integer wrappers, strings, ints, dicts, lists, tuples). -/
inductive Value where
  | null : Value
  | nan : Value
  | timestamp (iso : String) : Value
  | npInt (n : Int) : Value
  | str (s : String) : Value
  | int (n : Int) : Value
  | obj (fields : List (String × Value)) : Value
  | arr (elems : List Value) : Value
  | tup (elems : List Value) : Value

mutual

/-- `sanitize` from the source: `pd.isna`-positive scalars (NaN, NaT,
`None`) become `None`, timestamps become their isoformat string, numpy
scalars are unwrapped by `.item()`, dicts and lists/tuples are sanitized
recursively, every other value is returned unchanged. -/
def sanitize : Value → Value
  | .null => .null
  | .nan => .null
  | .timestamp iso => .str iso
  | .npInt n => .int n
  | .str s => .str s
  | .int n => .int n
  | .obj fields => .obj (sanitizeFields fields)
  | .arr elems => .arr (sanitizeList elems)
  | .tup elems => .tup (sanitizeList elems)

/-- Entrywise sanitization of a dict (`{k: sanitize(v) for k, v in value.items()}`). -/
def sanitizeFields : List (String × Value) → List (String × Value)
  | [] => []
  | (k, v) :: rest => (k, sanitize v) :: sanitizeFields rest

/-- Elementwise sanitization of a list or tuple (`[sanitize(v) for v in value]`). -/
def sanitizeList : List Value → List Value
  | [] => []
  | v :: rest => sanitize v :: sanitizeList rest

end

mutual

theorem sanitize_sanitize : ∀ v : Value, sanitize (sanitize v) = sanitize v
  | .null => rfl
  | .nan => rfl
  | .timestamp _ => rfl
  | .npInt _ => rfl
  | .str _ => rfl
  | .int _ => rfl
  | .obj fields => by simp [sanitize, sanitizeFields_idem fields]
  | .arr elems => by simp [sanitize, sanitizeList_idem elems]
  | .tup elems => by simp [sanitize, sanitizeList_idem elems]

theorem sanitizeFields_idem : ∀ fs : List (String × Value),
    sanitizeFields (sanitizeFields fs) = sanitizeFields fs
  | [] => rfl
  | (k, v) :: rest => by
      simp [sanitizeFields, sanitize_sanitize v, sanitizeFields_idem rest]

theorem sanitizeList_idem : ∀ xs : List Value,
    sanitizeList (sanitizeList xs) = sanitizeList xs
  | [] => rfl
  | v :: rest => by
      simp [sanitizeList, sanitize_sanitize v, sanitizeList_idem rest]

end

/-- C8: sanitization is idempotent — sanitizing an already-sanitized value
returns it unchanged, including for nested dicts, lists and tuples. -/
theorem c8_sanitize_idempotent (v : Value) : sanitize (sanitize v) = sanitize v :=
  sanitize_sanitize v

/-- The whitespace characters removed by Python `str.strip()`
(space, tab, newline, carriage return, vertical tab, form feed). -/
def isPySpace (c : Char) : Bool :=
  c == ' ' || c == '\t' || c == '\n' || c == '\r' || c == Char.ofNat 11 || c == Char.ofNat 12

/-- Strip `p`-satisfying characters from both ends of a character list. -/
def stripChars (p : Char → Bool) (l : List Char) : List Char :=
  (l.dropWhile p).rdropWhile p

/-- Python `str.strip()`: remove leading and trailing whitespace. -/
def pyStrip (s : String) : String :=
  ⟨stripChars isPySpace s.data⟩

theorem stripChars_idem (p : Char → Bool) (l : List Char) :
    stripChars p (stripChars p l) = stripChars p l := by
  unfold stripChars
  have h1 : List.dropWhile p ((l.dropWhile p).rdropWhile p) = (l.dropWhile p).rdropWhile p := by
    rw [List.dropWhile_eq_self_iff]
    intro hl
    have hpre : (l.dropWhile p).rdropWhile p <+: l.dropWhile p := List.rdropWhile_prefix p _
    have hlen : 0 < (l.dropWhile p).length := lt_of_lt_of_le hl hpre.length_le
    have hget : ((l.dropWhile p).rdropWhile p).get ⟨0, hl⟩ = (l.dropWhile p).get ⟨0, hlen⟩ := by
      simp only [List.get_eq_getElem]
      exact hpre.getElem hl
    rw [hget]
    exact List.dropWhile_get_zero_not p l hlen
  rw [h1, List.rdropWhile_idempotent]

theorem pyStrip_idem (s : String) : pyStrip (pyStrip s) = pyStrip s := by
  show (⟨stripChars isPySpace (stripChars isPySpace s.data)⟩ : String)
      = (⟨stripChars isPySpace s.data⟩ : String)
  rw [stripChars_idem]

/-- One step of Python `str.split(sep)` over character lists: when `sep`
occurs at the current position, cut the accumulated segment and skip the
separator; otherwise advance one character. The fuel argument (always at
least the text length plus one at the call site) makes the recursion
structural. -/
def splitSepAux (sep : List Char) : Nat → List Char → List Char → List (List Char)
  | 0, acc, _ => [acc.reverse]
  | _ + 1, acc, [] => [acc.reverse]
  | fuel + 1, acc, c :: rest =>
      if sep.isPrefixOf (c :: rest) then
        acc.reverse :: splitSepAux sep fuel [] ((c :: rest).drop sep.length)
      else splitSepAux sep fuel (c :: acc) rest

/-- Python `s.split(sep)` for a non-empty separator: every occurrence
splits, empty segments are kept (`"a;;b" -> ["a", "", "b"]`, `"" -> [""]`). -/
def pySplit (s sep : String) : List String :=
  (splitSepAux sep.data (s.data.length + 1) [] s.data).map (fun l => ⟨l⟩)

/-- Python `str.lower()` (ASCII). -/
def pyLower (s : String) : String := ⟨s.data.map Char.toLower⟩

/-- Python `str.upper()` (ASCII). -/
def pyUpper (s : String) : String := ⟨s.data.map Char.toUpper⟩

/-- A single-quote character, used by Python `repr` rendering. -/
def pyQuote : String := String.singleton (Char.ofNat 39)

mutual

/-- Python `repr` of a value, as `str()` renders values nested inside
containers. -/
def pyRepr : Value → String
  | .null => "None"
  | .nan => "nan"
  | .timestamp iso => "Timestamp(" ++ pyQuote ++ iso ++ pyQuote ++ ")"
  | .npInt n => toString n
  | .str s => pyQuote ++ s ++ pyQuote
  | .int n => toString n
  | .obj fields => "\x7b" ++ String.intercalate ", " (pyReprFields fields) ++ "\x7d"
  | .arr elems => "[" ++ String.intercalate ", " (pyReprList elems) ++ "]"
  | .tup [e] => "(" ++ pyRepr e ++ ",)"
  | .tup elems => "(" ++ String.intercalate ", " (pyReprList elems) ++ ")"

def pyReprFields : List (String × Value) → List String
  | [] => []
  | (k, v) :: rest => (pyQuote ++ k ++ pyQuote ++ ": " ++ pyRepr v) :: pyReprFields rest

def pyReprList : List Value → List String
  | [] => []
  | v :: rest => pyRepr v :: pyReprList rest

end

/-- Python `str()` of a value: the string itself for strings, the decimal
rendering for ints and numpy ints, `None` for `None`, `repr` otherwise. -/
def pyStr : Value → String
  | .str s => s
  | .timestamp iso => iso
  | v => pyRepr v

/-- A row: a Python dict in insertion order, mapping field names to values. -/
abbrev Row := List (String × Value)

/-- A Reference Index: `{key -> row_without_id}` as an insertion-ordered dict. -/
abbrev RefIndex := List (String × Row)

/-- Python dict assignment `d[k] = v`: replace the value in place if the key
exists (keeping its position), otherwise append the new entry at the end. -/
def dset {κ α : Type} [BEq κ] (d : List (κ × α)) (k : κ) (v : α) : List (κ × α) :=
  if d.any (fun kv => kv.1 == k) then
    d.map (fun kv => if kv.1 == k then (k, v) else kv)
  else d ++ [(k, v)]

/-- Python `d.pop(k, None)` (ignoring the returned value): remove the key. -/
def dpop {α : Type} (d : List (String × α)) (k : String) : List (String × α) :=
  d.filter (fun kv => kv.1 != k)

/-- Errors the pipeline can raise. -/
inductive Err where
  | schemaError (sheet idCol : String) : Err
  | dupError (sheet idCol : String) (preview : List String) (more : Bool) : Err
  | typeError (kw : String) : Err
  | unknownSheets (unknown available : List String) : Err
  | missingSheet (sheet : String) : Err

/-- A foreign-key specification from `RELATIONS` (one dict of the list). -/
structure RelSpec where
  fk_col : String
  ref_sheet : String
  ref_id_col : String
  as : String
  many : Bool
  drop_fk : Bool
  sep : Option String

/-- Default delimiter for multi-ID cells (`SEP = ";"`). -/
def SEP : String := ";"

/-- The relation table: main sheet name to its foreign-key specs. -/
def RELATIONS : List (String × List RelSpec) := [
  ("Uitgever_Drukker", [
    ⟨"Eerste_generatie_ID", "Personen", "ID_def", "Eerste_generatie_ID", false, true, none⟩,
    ⟨"Tweede_generatie_ID", "Personen", "ID_def", "Tweede_generatie_ID", false, true, none⟩,
    ⟨"Plaats1_ID", "Plaatsnaam", "Plaats_ID", "Plaats1", false, true, none⟩,
    ⟨"Plaats2_ID", "Plaatsnaam", "Plaats_ID", "Plaats2", false, true, none⟩,
    ⟨"Plaats3_ID", "Plaatsnaam", "Plaats_ID", "Plaats3", false, true, none⟩]),
  ("Tijdschriften", [
    ⟨"Uitgever_ID_nieuw", "Uitgever_Drukker", "Uitgever_ID_nieuw", "Uitgever", false, true, none⟩,
    ⟨"Uitgever2_ID_nieuw", "Uitgever_Drukker", "Uitgever_ID_nieuw", "Uitgever2", false, true, none⟩,
    ⟨"Drukker_ID_nieuw", "Uitgever_Drukker", "Uitgever_ID_nieuw", "Drukker", false, true, none⟩,
    ⟨"Plaats1_ID", "Plaatsnaam", "Plaats_ID", "Plaats1", false, true, none⟩,
    ⟨"Plaats2_ID", "Plaatsnaam", "Plaats_ID", "Plaats2", false, true, none⟩,
    ⟨"Plaats3_ID", "Plaatsnaam", "Plaats_ID", "Plaats3", false, true, none⟩,
    ⟨"Auteur-Redacteur1_ID", "Personen", "ID_def", "Auteur_Redacteur1", false, true, none⟩,
    ⟨"Auteur-Redacteur2_ID", "Personen", "ID_def", "Auteur_Redacteur2", false, true, none⟩,
    ⟨"Auteur-Redacteur3_ID", "Personen", "ID_def", "Auteur_Redacteur3", false, true, none⟩,
    ⟨"Auteur-Redacteur4_ID", "Personen", "ID_def", "Auteur_Redacteur4", false, true, none⟩,
    ⟨"Auteur-Redacteur5_ID", "Personen", "ID_def", "Auteur_Redacteur5", false, true, none⟩])]

/-- Canonical processing order (`SHEET_ORDER`). -/
def SHEET_ORDER : List String := ["Plaatsnaam", "Personen", "Uitgever_Drukker", "Tijdschriften"]

/-- `_infer_needed_indices_from_relations`, queried per sheet: the id
columns other sheets use to reference `sheet` (deduplicated). -/
def neededIdCols (sheet : String) : List String :=
  ((((RELATIONS.map Prod.snd).flatten.filter (fun rel => rel.ref_sheet == sheet)).map
    (fun rel => rel.ref_id_col)).dedup)

/-- Python `v == ""` on a field value: true only for the empty string. -/
def isEmptyStr : Value → Bool
  | .str "" => true
  | _ => false

/-- `_rowdict_without_id`: drop the id column and empty-string fields. -/
def rowdictWithoutId (d : Row) (idCol : String) : Row :=
  d.filter (fun kv => kv.1 != idCol && !isEmptyStr kv.2)

/-- Python `raw_id in (None, "")`: true for `None` and the empty string. -/
def isNoneOrEmptyStr : Value → Bool
  | .null => true
  | .str "" => true
  | _ => false

/-- The key under which a processed row is indexed: `r.get(id_col)` is
skipped when missing, `None` or `""`; otherwise `str(raw_id).strip()`,
skipped when empty. -/
def normKey (o : Option Value) : Option String :=
  match o with
  | none => none
  | some v =>
      if isNoneOrEmptyStr v then none
      else if pyStrip (pyStr v) = "" then none else some (pyStrip (pyStr v))

/-- The inner loop of `build_processed_indices_for_sheet` for one id
column: `idx[key] = _rowdict_without_id(r, id_col)` row by row. -/
def buildIdx (idCol : String) (records : List Row) : RefIndex :=
  records.foldl (fun idx r =>
    match normKey (r.lookup idCol) with
    | none => idx
    | some key => dset idx key (rowdictWithoutId r idCol)) []

/-- Process-lifetime in-memory stores: `_PROCESSED_SHEETS`,
`_PROCESSED_INDEX_CACHE` and `_RAW_REF_INDEX_CACHE`. -/
structure PState where
  processedSheets : List (String × List Row)
  processedIndexCache : List ((String × String) × RefIndex)
  rawRefIndexCache : List ((String × String × String) × RefIndex)

/-- The empty in-memory stores at interpreter start. -/
def PState.empty : PState := ⟨[], [], []⟩

/-- `build_processed_indices_for_sheet`: for every id column other sheets
use to reference this sheet, build `{id -> row_without_id}` from the
processed records and store it in the processed-index cache. -/
def build_processed_indices_for_sheet (st : PState) (sheet : String) (records : List Row) :
    PState :=
  (neededIdCols sheet).foldl (fun st idCol =>
    { st with processedIndexCache :=
        (dset st.processedIndexCache (sheet, idCol) (buildIdx idCol records)) }) st

/-- One sheet of the Excel workbook: its column header and cell rows
(as typed values; a missing cell is `Value.null`). -/
structure Sheet where
  cols : List String
  rows : List (List Value)

/-- The workbook: sheet name to sheet, in workbook order. -/
abbrev Workbook := List (String × Sheet)

/-- A cell as `pd.read_excel(..., dtype=str).fillna("")` sees it: missing
values become `""`, other values their string rendering. -/
def pyRawCell : Value → String
  | .null => ""
  | .nan => ""
  | v => pyStr v

/-- The records of a raw reference read: each row as a dict from column
name to string cell value. -/
def rawRecords (sh : Sheet) : List (List (String × String)) :=
  sh.rows.map (fun r => sh.cols.zip (r.map pyRawCell))

/-- The id-column values of a raw reference read (`df[id_col]`). -/
def rawIdVals (sh : Sheet) (idCol : String) : List String :=
  (rawRecords sh).map (fun r => (r.lookup idCol).getD "")

/-- pandas `duplicated()` positions: the values that already appeared
earlier in the list, in order (every occurrence after the first). -/
def dupScan (seen : List String) : List String → List String
  | [] => []
  | x :: rest =>
      if seen.contains x then x :: dupScan (x :: seen) rest
      else dupScan (x :: seen) rest

/-- `df[df[id_col].duplicated()][id_col].tolist()`. -/
def pdDuplicated (l : List String) : List String := dupScan [] l

/-- The `{id -> row-without-id}` map of a raw reference read. -/
def rawIndexOf (sh : Sheet) (idCol : String) : RefIndex :=
  (rawRecords sh).map (fun r =>
    ((r.lookup idCol).getD "",
     (r.filter (fun kv => kv.2 != "" && kv.1 != idCol)).map
       (fun kv => (kv.1, Value.str kv.2))))

/-- `load_raw_ref_index`: read a reference sheet, verify the id column
exists (Schema Error otherwise) and that its values have no duplicates
(Data Integrity Error naming the sheet, id column and the first five
duplicated values otherwise), then build and cache the raw index. -/
def load_raw_ref_index (wb : Workbook) (st : PState) (xlsPath sheet idCol : String) :
    Except Err (RefIndex × PState) :=
  match st.rawRefIndexCache.lookup (xlsPath, sheet, idCol) with
  | some idx => .ok (idx, st)
  | none =>
    match wb.lookup sheet with
    | none => .error (.missingSheet sheet)
    | some sh =>
      if idCol ∈ sh.cols then
        let dups := pdDuplicated (rawIdVals sh idCol)
        if dups.isEmpty then
          let idx := rawIndexOf sh idCol
          .ok (idx, { st with rawRefIndexCache :=
                        (dset st.rawRefIndexCache (xlsPath, sheet, idCol) idx) })
        else .error (.dupError sheet idCol (dups.take 5) (decide (dups.length > 5)))
      else .error (.schemaError sheet idCol)

/-- `get_best_ref_index`: prefer the processed index when the caller asks
for it and it exists; otherwise fall back to the (cached) raw read. -/
def get_best_ref_index (wb : Workbook) (st : PState)
    (xlsPath refSheet refIdCol : String) (preferProcessed : Bool) :
    Except Err (RefIndex × PState) :=
  if preferProcessed then
    match st.processedIndexCache.lookup (refSheet, refIdCol) with
    | some idx => .ok (idx, st)
    | none => load_raw_ref_index wb st xlsPath refSheet refIdCol
  else load_raw_ref_index wb st xlsPath refSheet refIdCol

/-- `dict(id=i, **fields)`: Python raises a `TypeError` when `fields`
already holds an `id` key; otherwise the `id` entry comes first. -/
def mkEmbed (key : String) (fields : Row) : Except Err Value :=
  if fields.any (fun kv => kv.1 == "id") then .error (.typeError "id")
  else .ok (.obj (("id", .str key) :: fields))

/-- `raw_val = row.get(fk_col, ""); fk_val = str(raw_val).strip() if
raw_val is not None else ""`. -/
def fkString (row : Row) (fkCol : String) : String :=
  match row.lookup fkCol with
  | none => ""
  | some .null => ""
  | some v => pyStrip (pyStr v)

/-- `[s.strip() for s in fk_val.split(sep) if s and s.strip()]`. -/
def pySegments (fkVal sep : String) : List String :=
  (pySplit fkVal sep).filterMap (fun s =>
    if s ≠ "" ∧ pyStrip s ≠ "" then some (pyStrip s) else none)

/-- The body of the per-row, per-relation loop of
`embed_relations_into_records`: resolve one relation into one row. -/
def embedOneRel (refIndices : List ((String × String) × RefIndex))
    (defaultSep : String) (row : Row) (rel : RelSpec) : Except Err Row := do
  let sep := rel.sep.getD defaultSep
  let fk_val := fkString row rel.fk_col
  let ref_idx := (refIndices.lookup (rel.ref_sheet, rel.ref_id_col)).getD []
  let row ←
    if rel.many then do
      let ids := pySegments fk_val sep
      let found := ids.filter (fun i => (ref_idx.lookup i).isSome)
      let embeds ← found.mapM (fun i => mkEmbed i ((ref_idx.lookup i).getD []))
      pure (dset row rel.as (.arr embeds))
    else
      match ref_idx.lookup fk_val with
      | some fields => do
          let e ← mkEmbed fk_val fields
          pure (dset row rel.as e)
      | none => pure (dset row rel.as .null)
  pure (if rel.drop_fk then dpop row rel.fk_col else row)

/-- The first loop of `embed_relations_into_records`: resolve each
distinct `(ref_sheet, ref_id_col)` pair once via `get_best_ref_index`. -/
def buildRefIndices (wb : Workbook) (st : PState) (xlsPath : String)
    (relations : List RelSpec) (prefer : Bool) :
    Except Err (List ((String × String) × RefIndex) × PState) :=
  relations.foldlM (fun acc rel => do
    let key := (rel.ref_sheet, rel.ref_id_col)
    match acc.1.lookup key with
    | some _ => pure acc
    | none => do
        let (idx, st) ← get_best_ref_index wb acc.2 xlsPath rel.ref_sheet rel.ref_id_col prefer
        pure (dset acc.1 key idx, st))
    ([], st)

/-- `embed_relations_into_records`: resolve each relation's reference
index once, then replace every row's foreign-key fields by embedded
objects / arrays (dropping consumed key columns where requested). -/
def embed_relations_into_records (wb : Workbook) (st : PState)
    (xlsPath mainSheet : String) (records : List Row) (relations : List RelSpec)
    (defaultSep : String) (preferProcessedRefs : Bool) :
    Except Err (List Row × PState) := do
  let (refIndices, st) ← buildRefIndices wb st xlsPath relations preferProcessedRefs
  let records ← records.mapM (fun row => relations.foldlM (embedOneRel refIndices defaultSep) row)
  pure (records, st)

/-- The records of the typed main-sheet read, with the sequential `rowId`
column inserted at position 0 (`df.insert(0, "rowId", range(1, len+1))`). -/
def mkRecords (sh : Sheet) : List Row :=
  (sh.rows.map (fun r => sh.cols.zip r)).enum.map
    (fun ir => ("rowId", Value.int (ir.1 + 1)) :: ir.2)

/-- `excel_sheet_to_json`: read the sheet, inject row identifiers, resolve
relations when `RELATIONS` configures some, snapshot the processed rows,
build the processed indices other sheets will need, sanitize every row.
Returns `(written count, cleaned records)` and the updated stores. -/
def excel_sheet_to_json (wb : Workbook) (st : PState)
    (excelPath mainSheet : String) (preferProcessedRefs : Bool) :
    Except Err ((Nat × List Row) × PState) := do
  match wb.lookup mainSheet with
  | none => .error (.missingSheet mainSheet)
  | some sh =>
    let records := mkRecords sh
    let (records, st) ←
      match RELATIONS.lookup mainSheet with
      | some rels =>
          if rels.isEmpty then pure (records, st)
          else embed_relations_into_records wb st excelPath mainSheet records rels SEP
                 preferProcessedRefs
      | none => pure (records, st)
    let st := { st with processedSheets := (dset st.processedSheets mainSheet records) }
    let st := build_processed_indices_for_sheet st mainSheet records
    let cleaned := records.map sanitizeFields
    pure ((cleaned.length, cleaned), st)

/-- The orchestrator's sheet loop: process the targets strictly in order,
accumulating the total written count and each sheet's cleaned rows. -/
def runSheets (wb : Workbook) (st : PState) (excelPath : String) (targets : List String) :
    Except Err ((Nat × List (String × List Row)) × PState) :=
  targets.foldlM (fun acc sheet => do
    let ((written, cleaned), st) ← excel_sheet_to_json wb acc.2 excelPath sheet true
    pure ((acc.1.1 + written, dset acc.1.2 sheet cleaned), st))
    ((0, []), st)

/-- `_resolve_all_sheets`: the workbook's sheet names. -/
def _resolve_all_sheets (wb : Workbook) : List String := wb.map Prod.fst

/-- The sheets selected by the request: `None`/`ALL` selects all sheets,
otherwise the comma-separated names, stripped. -/
def selectedSheets (wb : Workbook) (sheetArg : Option String) : List String :=
  match sheetArg with
  | none => _resolve_all_sheets wb
  | some s =>
      if pyUpper (pyStrip s) = "ALL" then _resolve_all_sheets wb
      else (pySplit s ",").map pyStrip

/-- The Python sort key: `(order_map.get(name, len(SHEET_ORDER)), name.lower())`. -/
def sortKey (name : String) : Nat × String :=
  ((SHEET_ORDER.indexOf? name).getD SHEET_ORDER.length, pyLower name)

/-- Lexicographic comparison of sort keys, as Python `sorted` orders the
key tuples `(canonical position, lower-cased name)`. -/
def keyLE (a b : String) : Prop :=
  (sortKey a).1 < (sortKey b).1 ∨
    ((sortKey a).1 = (sortKey b).1 ∧ (sortKey a).2 ≤ (sortKey b).2)

instance : DecidableRel keyLE := fun a b => by unfold keyLE; infer_instance

/-- `_normalize_targets`: validate the requested sheets against the
workbook (Unknown Sheet Error otherwise) and sort them by canonical
position first, lower-cased name second. -/
def _normalize_targets (wb : Workbook) (sheetArg : Option String) : Except Err (List String) :=
  let all_sheets := _resolve_all_sheets wb
  let selected := selectedSheets wb sheetArg
  let unknown := selected.filter (fun s => !all_sheets.contains s)
  if unknown.isEmpty then .ok (selected.insertionSort keyLE)
  else .error (.unknownSheets unknown all_sheets)

theorem lookup_cons_pair {α : Type} (p : String × α) (es : List (String × α)) (x : String) :
    (p :: es).lookup x = if x = p.1 then some p.2 else es.lookup x := by
  obtain ⟨k, b⟩ := p
  rw [List.lookup_cons]
  by_cases h : x = k
  · simp [h]
  · simp [h, show (x == k) = false by simp [h]]

theorem lookup_map_replace {α : Type} (k : String) (v : α) :
    ∀ d : List (String × α),
      (d.map (fun kv => if kv.1 == k then (k, v) else kv)).lookup k
        = if d.any (fun kv => kv.1 == k) then some v else none
  | [] => by simp
  | a :: d => by
      by_cases h : a.1 = k
      · simp [h, lookup_cons_pair]
      · have hb : (a.1 == k) = false := by simp [h]
        rw [List.map_cons, hb]
        simp only [Bool.false_eq_true, if_false, lookup_cons_pair,
          show k ≠ a.1 from Ne.symm h, if_neg (Ne.symm h), List.any_cons, hb, Bool.false_or]
        exact lookup_map_replace k v d

theorem lookup_append_single {α : Type} (k : String) (v : α) :
    ∀ d : List (String × α),
      (d ++ [(k, v)]).lookup k = match d.lookup k with | some w => some w | none => some v
  | [] => by simp
  | a :: d => by
      rw [List.cons_append, lookup_cons_pair, lookup_cons_pair]
      by_cases h : k = a.1
      · simp [h]
      · simp only [if_neg h]
        exact lookup_append_single k v d

theorem lookup_none_of_any_false {α : Type} (k : String) :
    ∀ d : List (String × α), d.any (fun kv => kv.1 == k) = false → d.lookup k = none
  | [], _ => rfl
  | a :: d, h => by
      simp only [List.any_cons, Bool.or_eq_false_iff, beq_eq_false_iff_ne] at h
      rw [lookup_cons_pair, if_neg (Ne.symm h.1)]
      exact lookup_none_of_any_false k d (by simpa using h.2)

/-- Looking up the assigned key after `d[k] = v` yields `v`. -/
theorem lookup_dset {α : Type} (d : List (String × α)) (k : String) (v : α) :
    (dset d k v).lookup k = some v := by
  unfold dset
  cases h : d.any (fun kv => kv.1 == k) with
  | true =>
      simp only [if_true, lookup_map_replace k v d, h]
  | false =>
      simp only [Bool.false_eq_true, if_false, lookup_append_single k v d,
        lookup_none_of_any_false k d h]

/-- `d[k] = v` leaves other keys unchanged. -/
theorem lookup_dset_ne {α : Type} (d : List (String × α)) (k k2 : String) (v : α)
    (h : k2 ≠ k) : (dset d k v).lookup k2 = d.lookup k2 := by
  unfold dset
  cases hany : d.any (fun kv => kv.1 == k) with
  | true =>
      simp only [if_true]
      clear hany
      induction d with
      | nil => simp
      | cons a d ih =>
          rw [List.map_cons]
          by_cases ha : a.1 = k
          · rw [show (if a.1 == k then (k, v) else a) = (k, v) by simp [ha]]
            rw [lookup_cons_pair, lookup_cons_pair]
            rw [if_neg (show ¬ k2 = (k, v).1 from h),
              if_neg (show ¬ k2 = a.1 by rw [ha]; exact h)]
            exact ih
          · rw [show (if a.1 == k then (k, v) else a) = a by simp [ha]]
            rw [lookup_cons_pair, lookup_cons_pair]
            by_cases hk2 : k2 = a.1
            · rw [if_pos hk2, if_pos hk2]
            · rw [if_neg hk2, if_neg hk2]
              exact ih
  | false =>
      simp only [Bool.false_eq_true, if_false]
      clear hany
      induction d with
      | nil => simp [lookup_cons_pair, h]
      | cons a d ih =>
          rw [List.cons_append, lookup_cons_pair, lookup_cons_pair]
          by_cases hk2 : k2 = a.1
          · rw [if_pos hk2, if_pos hk2]
          · rw [if_neg hk2, if_neg hk2]
            exact ih

/-- `d.pop(k2, None)` leaves other keys unchanged. -/
theorem lookup_dpop_ne {α : Type} (d : List (String × α)) (k k2 : String)
    (h : k ≠ k2) : (dpop d k2).lookup k = d.lookup k := by
  unfold dpop
  induction d with
  | nil => simp
  | cons a d ih =>
      rw [List.filter_cons]
      by_cases ha : a.1 = k2
      · rw [if_neg (by simp [ha]), lookup_cons_pair, if_neg (by rw [ha]; exact h)]
        exact ih
      · rw [if_pos (by simp [ha]), lookup_cons_pair, lookup_cons_pair]
        by_cases hk : k = a.1
        · simp [hk]
        · rw [if_neg hk, if_neg hk]
          exact ih

/-- C9: the injected row identifiers of a processed sheet are exactly the
contiguous sequence 1..N (N = number of rows read), assigned in input row
order — hence unique within the sheet's processing pass. -/
theorem c9_row_identifiers (sh : Sheet) :
    (mkRecords sh).map (fun r => r.lookup "rowId")
      = (List.range sh.rows.length).map (fun i : Nat => some (Value.int ((i : Int) + 1))) := by
  unfold mkRecords
  rw [List.map_map]
  have h : ((fun r : Row => r.lookup "rowId") ∘
        fun ir : Nat × Row => ("rowId", Value.int (ir.1 + 1)) :: ir.2)
      = (fun i : Nat => some (Value.int ((i : Int) + 1))) ∘ Prod.fst := by
    funext ir
    simp [Function.comp, lookup_cons_pair]
  rw [h, ← List.map_map, List.enum_eq_enumFrom, List.enumFrom_map_fst, List.length_map,
    List.range_eq_range']

/-- C3: the first configured relation of `Uitgever_Drukker` names its
output field after its foreign-key field with the removal flag set, the
reference lookup for key `P1` succeeds, yet after the relation is applied
the row holds NO output field at all: the code assigns the embedding and
then pops the same key, deleting it. The claim (and the contract
`replaces FK columns with embedded objects`) requires the output field to
survive with the embedding. -/
theorem c3_output_field_removed_when_as_equals_fk :
    ((RELATIONS.lookup "Uitgever_Drukker").getD []).head? =
      some ⟨"Eerste_generatie_ID", "Personen", "ID_def", "Eerste_generatie_ID",
        false, true, none⟩ ∧
    ([("P1", [("name", Value.str "Jan")])] : RefIndex).lookup "P1"
      = some [("name", Value.str "Jan")] ∧
    embedOneRel [(("Personen", "ID_def"), [("P1", [("name", Value.str "Jan")])])] ";"
      [("Eerste_generatie_ID", Value.str "P1"), ("x", Value.int 2)]
      ⟨"Eerste_generatie_ID", "Personen", "ID_def", "Eerste_generatie_ID",
        false, true, none⟩
      = .ok [("x", Value.int 2)] :=
  ⟨rfl, rfl, rfl⟩

/-- Concrete `Personen` sheet: one person `P1`. -/
def shPers : Sheet := ⟨["ID_def", "name"], [[Value.str "P1", Value.str "Jan"]]⟩

/-- Concrete `Plaatsnaam` sheet: one place `L1`. -/
def shPl : Sheet := ⟨["Plaats_ID", "plaats"], [[Value.str "L1", Value.str "Leiden"]]⟩

/-- Concrete `Uitgever_Drukker` sheet: one row referencing `P1` and `L1`. -/
def shUD : Sheet :=
  ⟨["Eerste_generatie_ID", "Tweede_generatie_ID", "Plaats1_ID", "Plaats2_ID", "Plaats3_ID"],
   [[Value.str "P1", Value.str "", Value.str "L1", Value.str "", Value.str ""]]⟩

/-- A three-sheet workbook exercising the processed-versus-raw choice. -/
def wb5 : Workbook := [("Plaatsnaam", shPl), ("Personen", shPers), ("Uitgever_Drukker", shUD)]

/-- C5: with the prefer-processed policy, a processed-cache hit for
`(sheet, key field)` is returned directly with the stores untouched (so
the raw source is not read). Consequently, in the concrete workbook
`wb5`, processing `Plaatsnaam` before `Uitgever_Drukker` embeds the
PROCESSED `Plaatsnaam` row (recognizable by its injected `rowId` field)
into `Plaats1`, while processing `Uitgever_Drukker` alone falls back to
the raw read, whose embedding carries no `rowId`. -/
theorem c5_prefer_processed :
    (∀ (wb : Workbook) (st : PState) (xlsPath refSheet refIdCol : String) (idx : RefIndex),
        st.processedIndexCache.lookup (refSheet, refIdCol) = some idx →
        get_best_ref_index wb st xlsPath refSheet refIdCol true = .ok (idx, st)) ∧
    ((runSheets wb5 PState.empty "p" ["Plaatsnaam", "Personen", "Uitgever_Drukker"]).toOption.map
        (fun x => x.1.2.lookup "Uitgever_Drukker"))
      = some (some [[("rowId", Value.int 1),
          ("Plaats1", Value.obj [("id", Value.str "L1"), ("rowId", Value.int 1),
            ("plaats", Value.str "Leiden")]),
          ("Plaats2", Value.null), ("Plaats3", Value.null)]]) ∧
    ((runSheets wb5 PState.empty "p" ["Uitgever_Drukker"]).toOption.map
        (fun x => x.1.2.lookup "Uitgever_Drukker"))
      = some (some [[("rowId", Value.int 1),
          ("Plaats1", Value.obj [("id", Value.str "L1"), ("plaats", Value.str "Leiden")]),
          ("Plaats2", Value.null), ("Plaats3", Value.null)]]) := by
  refine ⟨?_, rfl, rfl⟩
  intro wb st xlsPath refSheet refIdCol idx h
  simp [get_best_ref_index, h]

/-- Witness for C5: a concrete processed-cache hit returned unchanged. -/
theorem c5_witness :
    get_best_ref_index [] ⟨[], [(("A", "K"), [("k1", [])])], []⟩ "p" "A" "K" true
      = .ok ([("k1", [])], ⟨[], [(("A", "K"), [("k1", [])])], []⟩) :=
  c5_prefer_processed.1 [] ⟨[], [(("A", "K"), [("k1", [])])], []⟩ "p" "A" "K" [("k1", [])] rfl

/-- C1 (amended): for a single-valued relation whose output field is not
itself deleted by the removal flag, and whose resolution raises no error,
the output field is `null` exactly when the trimmed foreign-key string is
not a key of the Reference Index; otherwise it is the object
`{id: key, **fields}`. An empty trimmed value yields `null` only when the
empty string itself is not a key of the index (raw indices may hold one). -/
theorem c1_single_resolution :
    ∀ (refIndices : List ((String × String) × RefIndex)) (dsep : String) (row : Row)
      (rel : RelSpec) (idx : RefIndex) (row2 : Row),
      rel.many = false →
      (rel.drop_fk = true → rel.as ≠ rel.fk_col) →
      refIndices.lookup (rel.ref_sheet, rel.ref_id_col) = some idx →
      embedOneRel refIndices dsep row rel = .ok row2 →
      row2.lookup rel.as =
        some (match idx.lookup (fkString row rel.fk_col) with
              | some fields =>
                  Value.obj (("id", Value.str (fkString row rel.fk_col)) :: fields)
              | none => Value.null) := by
  intro refIndices dsep row rel idx row2 hmany hdrop hidx hok
  cases hfk : idx.lookup (fkString row rel.fk_col) with
  | none =>
      have hcomp : embedOneRel refIndices dsep row rel
          = .ok (if rel.drop_fk then dpop (dset row rel.as Value.null) rel.fk_col
                 else dset row rel.as Value.null) := by
        simp only [embedOneRel, hmany, hidx, Option.getD_some, Bool.false_eq_true,
          if_false, hfk]
        rfl
      rw [hcomp] at hok
      have hr : row2 = if rel.drop_fk then dpop (dset row rel.as Value.null) rel.fk_col
                 else dset row rel.as Value.null := (Except.ok.inj hok).symm
      subst hr
      cases hd : rel.drop_fk with
      | true =>
          rw [if_pos rfl, lookup_dpop_ne _ _ _ (hdrop hd), lookup_dset]
      | false =>
          rw [if_neg (by simp), lookup_dset]
  | some fields =>
      cases hany : fields.any (fun kv => kv.1 == "id") with
      | true =>
          have hcomp : embedOneRel refIndices dsep row rel = .error (.typeError "id") := by
            simp only [embedOneRel, hmany, hidx, Option.getD_some, Bool.false_eq_true,
              if_false, hfk, mkEmbed, hany]
            rfl
          rw [hcomp] at hok
          exact Except.noConfusion hok
      | false =>
          have hcomp : embedOneRel refIndices dsep row rel
              = .ok (if rel.drop_fk then
                       dpop (dset row rel.as
                         (Value.obj (("id", Value.str (fkString row rel.fk_col)) :: fields)))
                         rel.fk_col
                     else dset row rel.as
                       (Value.obj (("id", Value.str (fkString row rel.fk_col)) :: fields))) := by
            simp only [embedOneRel, hmany, hidx, Option.getD_some, Bool.false_eq_true,
              if_false, hfk, mkEmbed, hany]
            rfl
          rw [hcomp] at hok
          have hr := (Except.ok.inj hok).symm
          subst hr
          cases hd : rel.drop_fk with
          | true =>
              rw [if_pos rfl, lookup_dpop_ne _ _ _ (hdrop hd), lookup_dset]
          | false =>
              rw [if_neg (by simp), lookup_dset]

/-- A reference sheet whose single row has an EMPTY key cell. -/
def shEmptyKey : Sheet := ⟨["K", "name"], [[Value.str "", Value.str "X"]]⟩

/-- C1 counterexample: a raw Reference Index can hold the empty string as
a key (one reference row with an empty key cell loads without error), and
then a row whose foreign-key value trims to the empty string resolves to
the embedded object `{id: "", ...}` — NOT to `null` as the claim states
for every empty foreign-key value. -/
theorem c1_counterexample :
    fkString [("P", Value.str "")] "P" = "" ∧
    (load_raw_ref_index [("R", shEmptyKey)] PState.empty "p" "R" "K").toOption.map Prod.fst
      = some [("", [("name", Value.str "X")])] ∧
    embedOneRel [(("R", "K"), [("", [("name", Value.str "X")])])] ";"
      [("P", Value.str "")] ⟨"P", "R", "K", "out", false, false, none⟩
      = .ok [("P", Value.str ""),
             ("out", Value.obj [("id", Value.str ""), ("name", Value.str "X")])] ∧
    Value.obj [("id", Value.str ""), ("name", Value.str "X")] ≠ Value.null :=
  ⟨rfl, rfl, rfl, fun h => Value.noConfusion h⟩

/-- Witness for C1: the amended characterization evaluated at a concrete
found key. -/
theorem c1_witness :
    ([("fk", Value.str "P1"),
      ("out", Value.obj [("id", Value.str "P1"), ("name", Value.str "Jan")])] : Row).lookup
        "out"
      = some (match ([("P1", [("name", Value.str "Jan")])] : RefIndex).lookup
                (fkString [("fk", Value.str "P1")] "fk") with
              | some fields =>
                  Value.obj (("id", Value.str (fkString [("fk", Value.str "P1")] "fk")) :: fields)
              | none => Value.null) :=
  c1_single_resolution [(("R", "K"), [("P1", [("name", Value.str "Jan")])])] ";"
    [("fk", Value.str "P1")] ⟨"fk", "R", "K", "out", false, false, none⟩
    [("P1", [("name", Value.str "Jan")])]
    [("fk", Value.str "P1"),
     ("out", Value.obj [("id", Value.str "P1"), ("name", Value.str "Jan")])]
    rfl (fun h => Bool.noConfusion h) rfl rfl

theorem mapM_mkEmbed (idx : RefIndex) :
    ∀ l : List String,
      (∀ i ∈ l, ((idx.lookup i).getD []).any (fun kv => kv.1 == "id") = false) →
      (l.mapM (fun i => mkEmbed i ((idx.lookup i).getD [])))
        = .ok (l.map (fun i => Value.obj (("id", Value.str i) :: (idx.lookup i).getD [])))
  | [], _ => rfl
  | a :: l, h => by
      rw [List.mapM_cons]
      have ha := h a (by simp)
      rw [show mkEmbed a ((idx.lookup a).getD [])
            = .ok (Value.obj (("id", Value.str a) :: (idx.lookup a).getD [])) from by
          simp [mkEmbed, ha]]
      rw [mapM_mkEmbed idx l (fun i hi => h i (by simp [hi]))]
      rfl

/-- C2: for a multi-valued relation, the foreign-key value is split on the
relation's delimiter (the default when no override is given), segments are
trimmed and empty ones discarded, each remaining segment is looked up
independently, segments absent from the Reference Index are silently
dropped (no error arises from them), and the output field becomes the
array of matched embeddings in original segment order — possibly empty.
(The output field is observed where removal does not delete it, and the
embeddings raise no error when no referenced row carries an `id` field.) -/
theorem c2_multi_resolution :
    ∀ (refIndices : List ((String × String) × RefIndex)) (dsep : String) (row : Row)
      (rel : RelSpec) (idx : RefIndex),
      rel.many = true →
      (rel.drop_fk = true → rel.as ≠ rel.fk_col) →
      refIndices.lookup (rel.ref_sheet, rel.ref_id_col) = some idx →
      (∀ i ∈ (pySegments (fkString row rel.fk_col) (rel.sep.getD dsep)).filter
          (fun i => (idx.lookup i).isSome),
        ((idx.lookup i).getD []).any (fun kv => kv.1 == "id") = false) →
      ∃ row2,
        embedOneRel refIndices dsep row rel = .ok row2 ∧
        row2.lookup rel.as = some (Value.arr
          (((pySegments (fkString row rel.fk_col) (rel.sep.getD dsep)).filter
              (fun i => (idx.lookup i).isSome)).map
            (fun i => Value.obj (("id", Value.str i) :: (idx.lookup i).getD [])))) := by
  intro refIndices dsep row rel idx hmany hdrop hidx hfree
  refine ⟨(if rel.drop_fk then
      dpop (dset row rel.as (Value.arr
        (((pySegments (fkString row rel.fk_col) (rel.sep.getD dsep)).filter
            (fun i => (idx.lookup i).isSome)).map
          (fun i => Value.obj (("id", Value.str i) :: (idx.lookup i).getD []))))) rel.fk_col
    else
      dset row rel.as (Value.arr
        (((pySegments (fkString row rel.fk_col) (rel.sep.getD dsep)).filter
            (fun i => (idx.lookup i).isSome)).map
          (fun i => Value.obj (("id", Value.str i) :: (idx.lookup i).getD []))))), ?_, ?_⟩
  · simp only [embedOneRel, hmany, if_true, hidx, Option.getD_some]
    rw [mapM_mkEmbed idx _ hfree]
    rfl
  · cases hd : rel.drop_fk with
    | true =>
        rw [if_pos rfl, lookup_dpop_ne _ _ _ (hdrop hd), lookup_dset]
    | false =>
        rw [if_neg (by simp), lookup_dset]

/-- Index for the C2 witness: only `P1` and `P2` are present. -/
def c2idx : RefIndex :=
  [("P1", [("name", Value.str "Jan")]), ("P2", [("name", Value.str "Piet")])]

/-- Multi-valued relation for the C2 witness. -/
def c2rel : RelSpec := ⟨"fk", "R", "K", "out", true, false, none⟩

/-- Witness for C2: splitting `"P1; P2 ;P9"` on `;` embeds exactly the two
matched keys, in order, silently dropping `P9`. -/
theorem c2_witness :
    ∃ row2,
      embedOneRel [(("R", "K"), c2idx)] ";" [("fk", Value.str "P1; P2 ;P9")] c2rel
        = .ok row2 ∧
      row2.lookup c2rel.as = some (Value.arr
        (((pySegments (fkString [("fk", Value.str "P1; P2 ;P9")] c2rel.fk_col)
              (c2rel.sep.getD ";")).filter
            (fun i => (c2idx.lookup i).isSome)).map
          (fun i => Value.obj (("id", Value.str i) :: (c2idx.lookup i).getD [])))) :=
  c2_multi_resolution [(("R", "K"), c2idx)] ";" [("fk", Value.str "P1; P2 ;P9")] c2rel c2idx
    rfl (fun h => Bool.noConfusion h) rfl (by decide)

theorem dupScan_eq_nil_iff :
    ∀ (l : List String) (seen : List String),
      dupScan seen l = [] ↔ l.Nodup ∧ ∀ x ∈ l, x ∉ seen
  | [], seen => by simp [dupScan]
  | x :: rest, seen => by
      unfold dupScan
      by_cases hx : seen.contains x
      · simp only [hx, if_true]
        constructor
        · intro h
          exact absurd h (by simp)
        · rintro ⟨-, hall⟩
          exact absurd (List.mem_of_elem_eq_true hx) (hall x (by simp))
      · simp only [hx, Bool.false_eq_true, if_false]
        rw [dupScan_eq_nil_iff rest (x :: seen)]
        constructor
        · rintro ⟨hnd, hall⟩
          refine ⟨List.nodup_cons.mpr ⟨fun hmem => ?_, hnd⟩, ?_⟩
          · exact absurd (by simp : x ∈ x :: seen) (hall x hmem)
          · intro y hy
            rcases List.mem_cons.mp hy with h | h
            · subst h
              intro hc
              exact hx (List.elem_eq_true_of_mem hc)
            · intro hc
              exact (hall y h) (List.mem_cons_of_mem x hc)
        · rintro ⟨hnd, hall⟩
          have hxr := (List.nodup_cons.mp hnd).1
          refine ⟨(List.nodup_cons.mp hnd).2, ?_⟩
          intro y hy
          rw [List.mem_cons]
          rintro (h | h)
          · exact hxr (h ▸ hy)
          · exact (hall y (List.mem_cons_of_mem x hy)) h

/-- `duplicated().any()` is exactly the failure of `Nodup`. -/
theorem pdDuplicated_eq_nil_iff (l : List String) : pdDuplicated l = [] ↔ l.Nodup := by
  rw [pdDuplicated, dupScan_eq_nil_iff]
  simp

/-- C4 (amended): on a cache miss, building a raw Reference Index fails
with a Data Integrity Error naming the sheet, the key column and at most
the first five duplicated values exactly when the sheet's key column
contains duplicate values — with EMPTY values included in the check: two
rows with empty key cells also trigger the error. No duplicate is
silently resolved: otherwise the full index is built and cached. -/
theorem c4_duplicate_key_detection :
    ∀ (wb : Workbook) (st : PState) (xlsPath sheet idCol : String) (sh : Sheet),
      st.rawRefIndexCache.lookup (xlsPath, sheet, idCol) = none →
      wb.lookup sheet = some sh →
      idCol ∈ sh.cols →
      (load_raw_ref_index wb st xlsPath sheet idCol
          = .error (.dupError sheet idCol ((pdDuplicated (rawIdVals sh idCol)).take 5)
              (decide ((pdDuplicated (rawIdVals sh idCol)).length > 5)))
        ↔ ¬ (rawIdVals sh idCol).Nodup) ∧
      ((rawIdVals sh idCol).Nodup →
        load_raw_ref_index wb st xlsPath sheet idCol
          = .ok (rawIndexOf sh idCol,
              { st with rawRefIndexCache :=
                  (dset st.rawRefIndexCache (xlsPath, sheet, idCol) (rawIndexOf sh idCol)) })) := by
  intro wb st xlsPath sheet idCol sh hcache hsheet hcol
  have hred : load_raw_ref_index wb st xlsPath sheet idCol
      = (if (pdDuplicated (rawIdVals sh idCol)).isEmpty then
           .ok (rawIndexOf sh idCol,
             { st with rawRefIndexCache :=
                 (dset st.rawRefIndexCache (xlsPath, sheet, idCol) (rawIndexOf sh idCol)) })
         else
           .error (.dupError sheet idCol ((pdDuplicated (rawIdVals sh idCol)).take 5)
             (decide ((pdDuplicated (rawIdVals sh idCol)).length > 5)))) := by
    simp only [load_raw_ref_index, hcache, hsheet]
    rw [if_pos hcol]
  constructor
  · constructor
    · intro herr hnd
      rw [hred, if_pos (by
        rw [List.isEmpty_iff]
        exact (pdDuplicated_eq_nil_iff _).mpr hnd)] at herr
      exact Except.noConfusion herr
    · intro hnd
      have hne : pdDuplicated (rawIdVals sh idCol) ≠ [] :=
        fun h => hnd ((pdDuplicated_eq_nil_iff _).mp h)
      rw [hred, if_neg (by
        rw [List.isEmpty_iff]
        exact hne)]
  · intro hnd
    rw [hred, if_pos (by
      rw [List.isEmpty_iff]
      exact (pdDuplicated_eq_nil_iff _).mpr hnd)]

/-- A reference sheet with TWO rows whose key cells are both empty. -/
def shTwoEmpty : Sheet :=
  ⟨["K", "name"], [[Value.str "", Value.str "A"], [Value.str "", Value.str "B"]]⟩

/-- C4 counterexample: the non-empty key values of `shTwoEmpty` have no
duplicates (there are none at all), yet loading its raw reference index
fails with the Data Integrity Error — the duplicate check also counts
rows whose key value is empty, contrary to the claim. -/
theorem c4_counterexample :
    ((rawIdVals shTwoEmpty "K").filter (fun s => s != "")).Nodup ∧
    load_raw_ref_index [("S", shTwoEmpty)] PState.empty "p" "S" "K"
      = .error (.dupError "S" "K" [""] false) :=
  ⟨by decide, rfl⟩

/-- Witness for C4: the amended criterion applied to the two-empty-keys
sheet, whose key column has duplicates once empty values count. -/
theorem c4_witness :
    load_raw_ref_index [("S", shTwoEmpty)] PState.empty "p" "S" "K"
      = .error (.dupError "S" "K" ((pdDuplicated (rawIdVals shTwoEmpty "K")).take 5)
          (decide ((pdDuplicated (rawIdVals shTwoEmpty "K")).length > 5))) :=
  ((c4_duplicate_key_detection [("S", shTwoEmpty)] PState.empty "p" "S" "K" shTwoEmpty
      rfl rfl (by decide)).1).mpr (by decide)

theorem lookup_buildIdx (idCol : String) (records : List Row) (key : String) :
    (buildIdx idCol records).lookup key
      = (records.reverse.find? (fun r => normKey (r.lookup idCol) == some key)).map
          (fun r => rowdictWithoutId r idCol) := by
  induction records using List.reverseRecOn with
  | nil => simp [buildIdx]
  | append_singleton l r ih =>
      unfold buildIdx
      rw [List.foldl_append]
      show (match normKey (r.lookup idCol) with
            | none => buildIdx idCol l
            | some k2 => dset (buildIdx idCol l) k2 (rowdictWithoutId r idCol)).lookup key = _
      rw [List.reverse_concat]
      cases hkey : normKey (r.lookup idCol) with
      | none =>
          rw [List.find?_cons_of_neg _ (by simp [hkey])]
          exact ih
      | some k2 =>
          by_cases hk : key = k2
          · subst hk
            rw [lookup_dset, List.find?_cons_of_pos _ (by simp [hkey])]
            simp
          · rw [lookup_dset_ne _ _ _ _ hk,
              List.find?_cons_of_neg _ (by simp [hkey, Ne.symm hk])]
            exact ih

theorem normKey_str (s : String) :
    normKey (some (Value.str s)) = if pyStrip s = "" then none else some (pyStrip s) := by
  obtain ⟨data⟩ := s
  cases data with
  | nil => rfl
  | cons c cs => rfl

/-- C10: the processed secondary index skips rows whose key-field value is
missing, `None`, empty, or whitespace-only, raises no error on duplicate
keys, and maps every key to the (key-field-stripped) fields of the LAST
cached row bearing it — later rows silently overwrite earlier ones,
unlike the duplicate-rejecting raw index build. -/
theorem c10_processed_index_semantics :
    (∀ (idCol : String) (records : List Row) (key : String),
        (buildIdx idCol records).lookup key
          = (records.reverse.find? (fun r => normKey (r.lookup idCol) == some key)).map
              (fun r => rowdictWithoutId r idCol)) ∧
    normKey none = none ∧
    normKey (some Value.null) = none ∧
    (∀ s : String,
        normKey (some (Value.str s)) = if pyStrip s = "" then none else some (pyStrip s)) :=
  ⟨lookup_buildIdx, rfl, rfl, normKey_str⟩

theorem normKey_trimmed (o : Option Value) (k : String) (h : normKey o = some k) :
    pyStrip k = k := by
  cases o with
  | none => exact Option.noConfusion h
  | some v =>
      unfold normKey at h
      split at h
      · exact Option.noConfusion h
      · split at h
        · exact Option.noConfusion h
        · split at h
          · exact Option.noConfusion h
          · rw [← Option.some.inj h, pyStrip_idem]

/-- C7 (amended): every PROCESSED Reference Index has only trimmed keys
(each key equals its own strip), mapping each to some cached row's fields
with the key field and empty-string fields removed; a RAW Reference Index
instead keys each reference row by its VERBATIM key-column string — which
may carry surrounding whitespace or be empty — again mapping it to the
row's fields with the key field and empty-string fields removed. -/
theorem c7_index_key_shape :
    (∀ (idCol : String) (records : List Row) (key : String) (fields : Row),
        (buildIdx idCol records).lookup key = some fields →
        pyStrip key = key ∧ ∃ r ∈ records, fields = rowdictWithoutId r idCol) ∧
    (∀ (wb : Workbook) (st : PState) (xlsPath sheet idCol : String) (sh : Sheet)
        (idx : RefIndex) (st2 : PState),
        st.rawRefIndexCache.lookup (xlsPath, sheet, idCol) = none →
        wb.lookup sheet = some sh →
        load_raw_ref_index wb st xlsPath sheet idCol = .ok (idx, st2) →
        ∀ kv ∈ idx, ∃ r ∈ rawRecords sh,
          kv.1 = (r.lookup idCol).getD "" ∧
          kv.2 = (r.filter (fun p => p.2 != "" && p.1 != idCol)).map
                   (fun p => (p.1, Value.str p.2))) := by
  constructor
  · intro idCol records key fields h
    rw [lookup_buildIdx] at h
    cases hf : records.reverse.find? (fun r => normKey (r.lookup idCol) == some key) with
    | none => rw [hf] at h; exact Option.noConfusion h
    | some r =>
        rw [hf] at h
        have hmem : r ∈ records := List.mem_reverse.mp (List.mem_of_find?_eq_some hf)
        have hpred := List.find?_some hf
        have hkey : normKey (r.lookup idCol) = some key := by
          simpa using hpred
        exact ⟨normKey_trimmed _ _ hkey, r, hmem, (Option.some.inj h).symm⟩
  · intro wb st xlsPath sheet idCol sh idx st2 hcache hsheet hok
    have hidx : idx = rawIndexOf sh idCol := by
      by_cases hcol : idCol ∈ sh.cols
      · by_cases hdup : (pdDuplicated (rawIdVals sh idCol)).isEmpty
        · have hred : load_raw_ref_index wb st xlsPath sheet idCol
              = .ok (rawIndexOf sh idCol,
                  { st with rawRefIndexCache :=
                      (dset st.rawRefIndexCache (xlsPath, sheet, idCol)
                        (rawIndexOf sh idCol)) }) := by
            simp only [load_raw_ref_index, hcache, hsheet]
            rw [if_pos hcol, if_pos hdup]
          rw [hred] at hok
          exact (congrArg Prod.fst (Except.ok.inj hok)).symm
        · have hred : load_raw_ref_index wb st xlsPath sheet idCol
              = .error (.dupError sheet idCol ((pdDuplicated (rawIdVals sh idCol)).take 5)
                  (decide ((pdDuplicated (rawIdVals sh idCol)).length > 5))) := by
            simp only [load_raw_ref_index, hcache, hsheet]
            rw [if_pos hcol, if_neg hdup]
          rw [hred] at hok
          exact Except.noConfusion hok
      · have hred : load_raw_ref_index wb st xlsPath sheet idCol
            = .error (.schemaError sheet idCol) := by
          simp only [load_raw_ref_index, hcache, hsheet]
          rw [if_neg hcol]
        rw [hred] at hok
        exact Except.noConfusion hok
    subst hidx
    intro kv hkv
    unfold rawIndexOf at hkv
    obtain ⟨r, hr, hkveq⟩ := List.mem_map.mp hkv
    exact ⟨r, hr, by rw [← hkveq], by rw [← hkveq]⟩

/-- A reference sheet whose key cell ` P1 ` carries whitespace and whose
`note` field is the empty string. -/
def shUntrimmed : Sheet :=
  ⟨["Plaats_ID", "name", "note"], [[Value.str " P1 ", Value.str "X", Value.str ""]]⟩

/-- C7 counterexample: the raw Reference Index built from `shUntrimmed`
keys its row by the verbatim string `" P1 "`, which does not equal its own
trim — so not every index produced by the system has trimmed keys (the
value also lacks the empty-string `note` field, not only the key field). -/
theorem c7_counterexample :
    (load_raw_ref_index [("Plaatsnaam", shUntrimmed)] PState.empty "p" "Plaatsnaam"
        "Plaats_ID").toOption.map Prod.fst
      = some [(" P1 ", [("name", Value.str "X")])] ∧
    pyStrip " P1 " ≠ " P1 " :=
  ⟨rfl, by decide⟩

/-- Witness for C7: the processed-index half applied to one concrete
cached row, whose untrimmed key cell ` a ` is indexed as `a`. -/
theorem c7_witness :
    pyStrip "a" = "a" ∧
    ∃ r ∈ [[("K", Value.str " a "), ("x", Value.int 1)]],
      ([("x", Value.int 1)] : Row) = rowdictWithoutId r "K" :=
  c7_index_key_shape.1 "K" [[("K", Value.str " a "), ("x", Value.int 1)]] "a"
    [("x", Value.int 1)] rfl

/-- Comparison by canonical position only (first component of the key). -/
def posLE (a b : String) : Prop := (sortKey a).1 ≤ (sortKey b).1

instance : DecidableRel posLE := fun a b => by unfold posLE; infer_instance

/-- Case-insensitive alphabetical comparison. -/
def alphaLE (a b : String) : Prop := pyLower a ≤ pyLower b

instance : DecidableRel alphaLE := fun a b => by unfold alphaLE; infer_instance

/-- Modelled from the spec wording, for comparison with the code's
`_normalize_targets`: sheets present in the canonical sheet-order list
first, sorted by their position in that list, followed by the remaining
sheets sorted alphabetically case-insensitively. -/
def canonicalFirstOrder (selected : List String) : List String :=
  List.insertionSort posLE (selected.filter (fun s => SHEET_ORDER.contains s))
    ++ List.insertionSort alphaLE (selected.filter (fun s => !SHEET_ORDER.contains s))

/-- Strict comparison of sort keys. -/
def keyLT (a b : String) : Prop :=
  (sortKey a).1 < (sortKey b).1 ∨
    ((sortKey a).1 = (sortKey b).1 ∧ (sortKey a).2 < (sortKey b).2)

instance : IsTotal String keyLE := ⟨fun a b => by
  unfold keyLE
  rcases Nat.lt_trichotomy (sortKey a).1 (sortKey b).1 with h | h | h
  · exact Or.inl (Or.inl h)
  · rcases le_total (sortKey a).2 (sortKey b).2 with h2 | h2
    · exact Or.inl (Or.inr ⟨h, h2⟩)
    · exact Or.inr (Or.inr ⟨h.symm, h2⟩)
  · exact Or.inr (Or.inl h)⟩

instance : IsTrans String keyLE := ⟨fun a b c hab hbc => by
  unfold keyLE at hab hbc ⊢
  rcases hab with h1 | ⟨h1, h1s⟩
  · rcases hbc with h2 | ⟨h2, h2s⟩
    · exact Or.inl (h1.trans h2)
    · exact Or.inl (h2 ▸ h1)
  · rcases hbc with h2 | ⟨h2, h2s⟩
    · exact Or.inl (h1 ▸ h2)
    · exact Or.inr ⟨h1.trans h2, h1s.trans h2s⟩⟩

instance : IsTotal String posLE := ⟨fun a b => Nat.le_total _ _⟩

instance : IsTrans String posLE := ⟨fun _ _ _ => Nat.le_trans⟩

instance : IsTotal String alphaLE := ⟨fun a b => le_total _ _⟩

instance : IsTrans String alphaLE := ⟨fun _ _ _ h1 h2 => le_trans h1 h2⟩

instance : IsAntisymm String keyLT := ⟨fun a b h1 h2 => by
  unfold keyLT at h1 h2
  rcases h1 with h1 | ⟨h1e, h1s⟩ <;> rcases h2 with h2 | ⟨h2e, h2s⟩
  · exact absurd h2 (Nat.lt_asymm h1)
  · omega
  · omega
  · exact absurd h2s (not_lt_of_lt h1s)⟩

theorem keyLT_of_le_of_ne {a b : String} (hle : keyLE a b) (hne : sortKey a ≠ sortKey b) :
    keyLT a b := by
  unfold keyLE at hle
  unfold keyLT
  rcases hle with h | ⟨he, hs⟩
  · exact Or.inl h
  · exact Or.inr ⟨he, lt_of_le_of_ne hs fun hsnd => hne (Prod.ext he hsnd)⟩

theorem pos_lt_of_mem : ∀ s ∈ SHEET_ORDER,
    (SHEET_ORDER.indexOf? s).getD SHEET_ORDER.length < SHEET_ORDER.length := by decide

theorem pos_inj_of_mem : ∀ a ∈ SHEET_ORDER, ∀ b ∈ SHEET_ORDER,
    (SHEET_ORDER.indexOf? a).getD SHEET_ORDER.length
      = (SHEET_ORDER.indexOf? b).getD SHEET_ORDER.length → a = b := by decide

theorem pos_eq_of_not_mem {s : String} (h : s ∉ SHEET_ORDER) :
    (SHEET_ORDER.indexOf? s).getD SHEET_ORDER.length = SHEET_ORDER.length := by
  have hnone : SHEET_ORDER.indexOf? s = none := by
    unfold List.indexOf?
    rw [List.findIdx?_eq_none_iff]
    intro x hx
    rw [beq_eq_false_iff_ne]
    intro he
    exact h (he ▸ hx)
  rw [hnone]
  rfl

theorem insertionSort_keyLE_eq_canonical (selected : List String)
    (hnd : (selected.map sortKey).Nodup) :
    List.insertionSort keyLE selected = canonicalFirstOrder selected := by
  have hperm : List.Perm (List.insertionSort keyLE selected) (canonicalFirstOrder selected) := by
    refine (List.perm_insertionSort keyLE selected).trans (List.Perm.symm ?_)
    unfold canonicalFirstOrder
    refine (List.Perm.append (List.perm_insertionSort _ _)
      (List.perm_insertionSort _ _)).trans ?_
    exact List.filter_append_perm _ selected
  have hsorted1 : List.Sorted keyLT (List.insertionSort keyLE selected) := by
    have h1 : List.Sorted keyLE (List.insertionSort keyLE selected) :=
      List.sorted_insertionSort keyLE selected
    have h2 : List.Pairwise (fun a b => sortKey a ≠ sortKey b)
        (List.insertionSort keyLE selected) := by
      have h3 : ((List.insertionSort keyLE selected).map sortKey).Nodup :=
        ((List.perm_insertionSort keyLE selected).map sortKey).nodup_iff.mpr hnd
      exact List.pairwise_map.mp h3
    exact (List.Pairwise.and h1 h2).imp fun h => keyLT_of_le_of_ne h.1 h.2
  have hsorted2 : List.Sorted keyLT (canonicalFirstOrder selected) := by
    unfold canonicalFirstOrder List.Sorted
    rw [List.pairwise_append]
    refine ⟨?_, ?_, ?_⟩
    · have hA : List.Sorted posLE
          (List.insertionSort posLE (selected.filter (fun s => SHEET_ORDER.contains s))) :=
        List.sorted_insertionSort posLE _
      have hndA : ((selected.filter (fun s => SHEET_ORDER.contains s)).map sortKey).Nodup :=
        List.Nodup.sublist ((List.filter_sublist selected).map sortKey) hnd
      have hne : List.Pairwise (fun a b => sortKey a ≠ sortKey b)
          (List.insertionSort posLE (selected.filter (fun s => SHEET_ORDER.contains s))) := by
        have h3 := ((List.perm_insertionSort posLE _).map sortKey).nodup_iff.mpr hndA
        exact List.pairwise_map.mp h3
      have hmem : ∀ x ∈ List.insertionSort posLE
          (selected.filter (fun s => SHEET_ORDER.contains s)), x ∈ SHEET_ORDER := by
        intro x hx
        have hx2 := (List.mem_insertionSort posLE).mp hx
        have hx3 := (List.mem_filter.mp hx2).2
        simpa using hx3
      refine List.Pairwise.imp_of_mem (fun {a b} ha hb h => ?_) (List.Pairwise.and hA hne)
      obtain ⟨hle, hkne⟩ := h
      unfold posLE at hle
      rcases Nat.lt_or_eq_of_le hle with h | h
      · exact Or.inl h
      · exact absurd (congrArg sortKey (pos_inj_of_mem a (hmem a ha) b (hmem b hb) h)) hkne
    · have hB : List.Sorted alphaLE
          (List.insertionSort alphaLE (selected.filter (fun s => !SHEET_ORDER.contains s))) :=
        List.sorted_insertionSort alphaLE _
      have hndB : ((selected.filter (fun s => !SHEET_ORDER.contains s)).map sortKey).Nodup :=
        List.Nodup.sublist ((List.filter_sublist selected).map sortKey) hnd
      have hne : List.Pairwise (fun a b => sortKey a ≠ sortKey b)
          (List.insertionSort alphaLE (selected.filter (fun s => !SHEET_ORDER.contains s))) := by
        have h3 := ((List.perm_insertionSort alphaLE _).map sortKey).nodup_iff.mpr hndB
        exact List.pairwise_map.mp h3
      have hmem : ∀ x ∈ List.insertionSort alphaLE
          (selected.filter (fun s => !SHEET_ORDER.contains s)), x ∉ SHEET_ORDER := by
        intro x hx
        have hx2 := (List.mem_insertionSort alphaLE).mp hx
        have hx3 := (List.mem_filter.mp hx2).2
        simpa using hx3
      refine List.Pairwise.imp_of_mem (fun {a b} ha hb h => ?_) (List.Pairwise.and hB hne)
      obtain ⟨hle, hkne⟩ := h
      unfold alphaLE at hle
      refine Or.inr ⟨?_, ?_⟩
      · rw [show (sortKey a).1 = SHEET_ORDER.length from pos_eq_of_not_mem (hmem a ha),
          show (sortKey b).1 = SHEET_ORDER.length from pos_eq_of_not_mem (hmem b hb)]
      · refine lt_of_le_of_ne hle fun hsnd => hkne ?_
        exact Prod.ext (by
          rw [show (sortKey a).1 = SHEET_ORDER.length from pos_eq_of_not_mem (hmem a ha),
            show (sortKey b).1 = SHEET_ORDER.length from pos_eq_of_not_mem (hmem b hb)]) hsnd
    · intro a ha b hb
      have hamem : a ∈ SHEET_ORDER := by
        have hx2 := (List.mem_insertionSort posLE).mp ha
        have hx3 := (List.mem_filter.mp hx2).2
        simpa using hx3
      have hbmem : b ∉ SHEET_ORDER := by
        have hx2 := (List.mem_insertionSort alphaLE).mp hb
        have hx3 := (List.mem_filter.mp hx2).2
        simpa using hx3
      refine Or.inl ?_
      rw [show (sortKey b).1 = SHEET_ORDER.length from pos_eq_of_not_mem hbmem]
      exact pos_lt_of_mem a hamem
  exact List.eq_of_perm_of_sorted hperm hsorted1 hsorted2

/-- C6: every successfully normalized sheet selection (with pairwise
distinct sort keys, as actual distinct sheet names have) is ordered with
the canonical sheets first — sorted by canonical position — followed by
the remaining sheets sorted alphabetically case-insensitively; in
particular requesting `"Tijdschriften,Personen"` where the canonical
order lists `Personen` first processes `Personen` first. -/
theorem c6_processing_order :
    (∀ (wb : Workbook) (sheetArg : Option String) (out : List String),
        _normalize_targets wb sheetArg = .ok out →
        ((selectedSheets wb sheetArg).map sortKey).Nodup →
        out = canonicalFirstOrder (selectedSheets wb sheetArg)) ∧
    _normalize_targets [("Tijdschriften", Sheet.mk [] []), ("Personen", Sheet.mk [] [])]
        (some "Tijdschriften,Personen")
      = .ok ["Personen", "Tijdschriften"] := by
  constructor
  · intro wb sheetArg out hok hnd
    have hout : out = List.insertionSort keyLE (selectedSheets wb sheetArg) := by
      simp only [_normalize_targets] at hok
      split at hok
      · exact (Except.ok.inj hok).symm
      · exact Except.noConfusion hok
    rw [hout]
    exact insertionSort_keyLE_eq_canonical _ hnd
  · rfl

/-- Witness for C6: the amended characterization applied to the concrete
request `"Tijdschriften,Personen"`. -/
theorem c6_witness :
    ["Personen", "Tijdschriften"]
      = canonicalFirstOrder (selectedSheets
          [("Tijdschriften", Sheet.mk [] []), ("Personen", Sheet.mk [] [])]
          (some "Tijdschriften,Personen")) :=
  c6_processing_order.1
    [("Tijdschriften", Sheet.mk [] []), ("Personen", Sheet.mk [] [])]
    (some "Tijdschriften,Personen") ["Personen", "Tijdschriften"] rfl (by decide)
